import Mathlib

/-!
Verification of the fitcode2prompt core against its specification.

The definitions below are a shallow embedding of the Python sources
(`planner.py`, `async_processor.py`, `summarizer.py`, `file_discovery.py`).
Pure functions become Lean functions; Python exceptions become `Except`
values (a raised exception is an `Except.error` that propagates); Python
dicts and sets become association lists and `Finset`s; machine integers
are modelled as `Nat` (all quantities involved are non-negative counts).
External collaborators (the LLM oracle, the transformation service, the
filesystem) are modelled as explicit inputs, mirroring the points where
the source calls out of the core.
-/

namespace Fit

/-! ## String helpers

Models of the Python string operations used by the sources, written over
the character list of the string so that all definitions evaluate by kernel
reduction. -/

/-- Python `s.split(c)` for a single-character separator (empty pieces are
preserved; splitting the empty string yields one empty piece). -/
def splitOnChar (c : Char) : List Char → List (List Char)
  | [] => [[]]
  | x :: xs =>
      let r := splitOnChar c xs
      if x = c then [] :: r
      else
        match r with
        | [] => [[x]]
        | h :: t => (x :: h) :: t

/-- Python `s.split(c)` for a single-character separator, on strings. -/
def strSplitOnChar (c : Char) (s : String) : List String :=
  (splitOnChar c s.toList).map String.mk

/-- Split a character list at the first occurrence of a separator:
Python `s.split(sep, 1)` when the separator occurs, `none` otherwise. -/
def splitFirstOn (sep : List Char) : List Char → Option (List Char × List Char)
  | [] => if sep.isPrefixOf ([] : List Char) then some ([], []) else none
  | x :: xs =>
      if sep.isPrefixOf (x :: xs) then some ([], (x :: xs).drop sep.length)
      else (splitFirstOn sep xs).map fun p => (x :: p.1, p.2)

/-- Python `s.endswith(c)` for a single character. -/
def strEndsWithChar (c : Char) (s : String) : Bool :=
  s.toList.getLast? == some c

/-- Python `s.startswith(c)` for a single character. -/
def strStartsWithChar (c : Char) (s : String) : Bool :=
  s.toList.head? == some c

/-- Python `s[:-1]`. -/
def strDropLast (s : String) : String :=
  String.mk s.toList.dropLast

/-- Python `s[1:]`. -/
def strDropHead (s : String) : String :=
  String.mk (s.toList.drop 1)

/-- Python `sep.join(pieces)`. -/
def strJoin (sep : String) (pieces : List String) : String :=
  match pieces with
  | [] => ""
  | p :: ps => ps.foldl (fun acc q => acc ++ sep ++ q) p

/-! ## Planner (planner.py) -/

namespace Planner

/-- Source constant `MIN_COMPRESSED_TOKENS = 100`. -/
def MIN_COMPRESSED_TOKENS : Nat := 100

/-- Keys of the source `TIER_NAMES` table: the six-tier compression scale. -/
def tierScale : List Nat := [100, 95, 85, 50, 10, 0]

/-- Source `Planner._estimate_file_tokens(original_tokens, tier)`.
`int(original_tokens * tier / 100)` is modelled as exact `Nat` division
(truncating division of non-negative integers). -/
def estimate_file_tokens (originalTokens : Nat) (tier : Nat) : Nat :=
  if tier = 0 then
    min MIN_COMPRESSED_TOKENS originalTokens
  else if tier = 100 then
    originalTokens
  else
    min (max MIN_COMPRESSED_TOKENS (originalTokens * tier / 100)) originalTokens

/-- One entry of a compression plan: the dicts `{path, original_tokens, tier}`
used both for the oracle's proposed files and for user-fixed files. -/
structure PlanFile where
  path : String
  originalTokens : Nat
  tier : Nat
deriving DecidableEq, Repr

/-- Source `Planner._calculate_fixed_tokens(fixed_files)`. -/
def calculate_fixed_tokens (fixedFiles : List PlanFile) : Nat :=
  (fixedFiles.map fun f => estimate_file_tokens f.originalTokens f.tier).sum

/-- Source `Planner._calculate_estimated_tokens(files_plan)`: returns the
pair `(total_estimated, file_estimates)`. -/
def calculate_estimated_tokens (filesPlan : List PlanFile) :
    Nat × List (PlanFile × Nat) :=
  filesPlan.foldl
    (fun acc filePlan =>
      let estimated := estimate_file_tokens filePlan.originalTokens filePlan.tier
      (acc.1 + estimated, acc.2 ++ [(filePlan, estimated)]))
    (0, [])

/-- Python dict lookup for `file_dict = {f[0]: f[1] for f in files}` followed
by `file_dict.get(key)`: in a dict comprehension a later duplicate key
overwrites an earlier one, so the lookup returns the last matching value. -/
def dictLookup (files : List (String × Nat)) (key : String) : Option Nat :=
  files.foldl (fun acc kv => if kv.1 == key then some kv.2 else acc) none

/-- The plan dictionary returned by the planner.  The error result built by
`_create_error_result` carries only `valid`, `error` and `reasoning`; the
success result built by `_build_plan_result` carries the numeric fields and
`files` but no `error`.  Keys absent from a given dict are `none`. -/
structure PlanResult where
  valid : Bool
  totalEstimated : Option Nat
  budget : Option Nat
  effectiveBudget : Option Nat
  bufferPercent : Option Nat
  reasoning : String
  error : Option String
  files : Option (List PlanFile)
deriving DecidableEq, Repr

/-- Source `Planner._create_error_result(error, reasoning)`. -/
def create_error_result (error : String) (reasoning : Option String) : PlanResult :=
  { valid := false
    totalEstimated := none
    budget := none
    effectiveBudget := none
    bufferPercent := none
    reasoning := reasoning.getD "No reasoning provided"
    error := some error
    files := none }

/-- Source `Planner._build_plan_result(plan_data, files, fixed_files,
fixed_tokens, total_estimated, budget, effective_budget, buffer_percent,
reasoning)`.  Note that it sets `valid := true` unconditionally and never
compares `total_estimated + fixed_tokens` with `effective_budget`. -/
def build_plan_result (planData : List PlanFile) (files : List (String × Nat))
    (fixedFiles : List PlanFile) (fixedTokens totalEstimated budget
    effectiveBudget bufferPercent : Nat) (reasoning : Option String) :
    PlanResult :=
  { valid := true
    totalEstimated := some (totalEstimated + fixedTokens)
    budget := some budget
    effectiveBudget := some effectiveBudget
    bufferPercent := some bufferPercent
    reasoning := reasoning.getD "No reasoning provided"
    error := none
    files := some
      ((planData.map fun filePlan =>
          { path := filePlan.path
            originalTokens :=
              (dictLookup files filePlan.path).getD filePlan.originalTokens
            tier := filePlan.tier })
        ++ fixedFiles) }

/-- One tool call of the oracle response.  `arguments` models the outcome of
`json.loads(tool_call.function.arguments)` followed by the `plan_data["files"]`
access: either the fully parsed list of plan files, or the exception text when
the arguments cannot be parsed as a structured proposal. -/
structure ToolCall where
  arguments : Except String (List PlanFile)
deriving Repr

/-- The oracle (LLM) response as seen by `_process_tool_response`:
`response.choices[0].message.tool_calls` (empty list models a missing/empty
tool-call list) and `response.choices[0].message.content`. -/
structure OracleResponse where
  toolCalls : List ToolCall
  content : Option String
deriving Repr

/-- Source `Planner._process_tool_response`.  The returned 4-tuple
`(result, is_valid, tool_call, response)` is collapsed to its first component,
which is the only one its caller keeps.  A `json.loads` failure is a raised
exception, modelled as `Except.error` propagating to the caller. -/
def process_tool_response (response : OracleResponse)
    (files : List (String × Nat)) (fixedFiles : List PlanFile)
    (fixedTokens budget effectiveBudget bufferPercent : Nat) :
    Except String PlanResult :=
  match response.toolCalls with
  | [] =>
      Except.ok (create_error_result "Model did not generate a proper plan"
        response.content)
  | toolCall :: _ =>
      match toolCall.arguments with
      | Except.error e => Except.error e
      | Except.ok planFiles =>
          let totalEstimated := (calculate_estimated_tokens planFiles).1
          Except.ok (build_plan_result planFiles files fixedFiles fixedTokens
            totalEstimated budget effectiveBudget bufferPercent
            response.content)

/-- Source `Planner._apply_buffer_to_budget(budget, buffer_percent)`:
`int(budget * (1 - buffer_percent / 100))`, modelled with exact arithmetic
for `buffer_percent ≤ 100`. -/
def apply_buffer_to_budget (budget bufferPercent : Nat) : Nat :=
  budget * (100 - bufferPercent) / 100

/-- Source `Planner._get_plan_from_llm`.  The `completion(...)` call is an
external collaborator; its outcome (a response, or a raised exception) is an
input.  The `except` block logs and re-raises, so both a failed completion
call and a `json.loads` failure inside `_process_tool_response` propagate as
`Except.error`. -/
def get_plan_from_llm (oracleCall : Except String OracleResponse)
    (effectiveBudget : Nat) (files : List (String × Nat))
    (fixedFiles : List PlanFile) (fixedTokens bufferPercent budget : Nat) :
    Except String PlanResult :=
  match oracleCall with
  | Except.error e => Except.error e
  | Except.ok response =>
      process_tool_response response files fixedFiles fixedTokens budget
        effectiveBudget bufferPercent

/-- Source `Planner.make_plan(files, budget, buffer_percent, fixed_files)`.
Verbose logging and the prompt text (which only feed the external oracle)
are omitted; the oracle's reply is the `oracleCall` input. -/
def make_plan (files : List (String × Nat)) (budget : Nat)
    (bufferPercent : Nat) (fixedFiles : List PlanFile)
    (oracleCall : Except String OracleResponse) : Except String PlanResult :=
  let effectiveBudget := apply_buffer_to_budget budget bufferPercent
  let fixedTokens := calculate_fixed_tokens fixedFiles
  get_plan_from_llm oracleCall effectiveBudget files fixedFiles fixedTokens
    bufferPercent budget

/-- Total of the core's deterministic per-entry estimates over a list of plan
entries: the quantity the specification's budget invariant is stated about. -/
def planFilesEstimate (files : List PlanFile) : Nat :=
  (files.map fun f => estimate_file_tokens f.originalTokens f.tier).sum

end Planner

/-! ## Summarizer estimate copy (summarizer.py) -/

namespace Summarizer

/-- Source `Summarizer._get_estimated_tokens(file_info)`: uses the
`estimated_tokens` entry when the dict has one, otherwise recomputes the
estimate with the same formula as the planner. -/
def get_estimated_tokens (estimatedTokens : Option Nat)
    (originalTokens tier : Nat) : Nat :=
  match estimatedTokens with
  | some e => e
  | none =>
      if tier = 0 then min 100 originalTokens
      else if tier = 100 then originalTokens
      else min (max 100 (originalTokens * tier / 100)) originalTokens

end Summarizer

/-! ## User compression mapping (summarizer.py) -/

namespace Summarizer

/-- Source list comprehension in `_build_user_compression_mapping`: the
patterns whose configured level equals `tier`.  `compression_config` (a dict
from pattern to level) is modelled as an association list. -/
def patterns_for_tier (compressionConfig : List (String × Nat)) (tier : Nat) :
    List String :=
  (compressionConfig.filter fun pl => pl.2 == tier).map Prod.fst

/-- The body of the `for tier in all_tiers` loop of
`_build_user_compression_mapping`: walk `files`, and assign `tier` to every
file that is not yet in the mapping and matches one of this tier's patterns.
The dict is modelled as an association list with new entries at the front
(keys are only inserted when absent, so lookup is unambiguous). -/
def assignFilesAtTier (fileMatches : String → String → Bool)
    (pats : List String) (tier : Nat) (files : List String)
    (acc : List (String × Nat)) : List (String × Nat) :=
  files.foldl
    (fun acc2 filepath =>
      if (acc2.lookup filepath).isSome then acc2
      else if pats.any (fun pattern => fileMatches filepath pattern) then
        (filepath, tier) :: acc2
      else acc2)
    acc

/-- Source `all_tiers = sorted(set(self.compression_config.values()))`. -/
def all_tiers (compressionConfig : List (String × Nat)) : List Nat :=
  List.insertionSort (fun a b => a ≤ b) (compressionConfig.map Prod.snd).dedup

/-- Source `Summarizer._build_user_compression_mapping(files)`.  The file
matcher `self._file_matches_pattern` (which resolves paths and may read file
contents for `::` patterns) is passed in as `fileMatches`.  The source's
`if not patterns_for_tier: continue` shortcut is subsumed by `List.any` on an
empty pattern list being `false`. -/
def build_user_compression_mapping (fileMatches : String → String → Bool)
    (compressionConfig : List (String × Nat)) (files : List String) :
    List (String × Nat) :=
  (all_tiers compressionConfig).foldl
    (fun acc tier =>
      assignFilesAtTier fileMatches (patterns_for_tier compressionConfig tier)
        tier files acc)
    []

end Summarizer

/-! ## File discovery (file_discovery.py)

Python's `fnmatch.fnmatch(name, pattern)` (POSIX, so case is preserved) is
implemented directly: the pattern is compiled to tokens (`*`, `?`, literal
characters, and `[...]` classes with optional `!` negation, ranges, a
literal `]` first member, and an unterminated `[` treated as a literal) and
must match the entire name. -/

namespace FileDiscovery

/-- A compiled glob-pattern token. -/
inductive GlobToken where
  | star : GlobToken
  | anyChar : GlobToken
  | lit : Char → GlobToken
  | cls : Bool → List Char → GlobToken
deriving DecidableEq, Repr

/-- Scan for the closing `]` of a character class: returns the class body
and the remainder after the `]`, or `none` when the class is unterminated. -/
def findClassEnd : List Char → Option (List Char × List Char)
  | [] => none
  | c :: rest =>
      if c = ']' then some ([], rest)
      else (findClassEnd rest).map fun p => (c :: p.1, p.2)

theorem findClassEnd_length {cs cls rest : List Char}
    (h : findClassEnd cs = some (cls, rest)) : rest.length < cs.length := by
  induction cs generalizing cls with
  | nil => simp [findClassEnd] at h
  | cons c cs ih =>
    simp only [findClassEnd] at h
    split at h
    · simp only [Option.some.injEq, Prod.mk.injEq] at h
      simp [← h.2]
    · match hr : findClassEnd cs with
      | none => rw [hr] at h; simp at h
      | some (cls1, rest1) =>
        rw [hr] at h
        simp only [Option.map_some', Option.some.injEq, Prod.mk.injEq] at h
        have hsub : findClassEnd cs = some (cls1, rest) := by rw [hr, h.2]
        have := ih hsub
        simpa using Nat.lt_succ_of_lt this

/-- Strip the optional leading `!` (negation marker) of a class body. -/
def classNeg : List Char → Bool × List Char
  | '!' :: t => (true, t)
  | rest => (false, rest)

/-- Scan a class body for its closing `]`, treating a `]` in first position
as a literal class member. -/
def classScan : List Char → Option (List Char × List Char)
  | ']' :: t => (findClassEnd t).map fun q => (']' :: q.1, q.2)
  | rest => findClassEnd rest

theorem classNeg_length (l : List Char) : (classNeg l).2.length ≤ l.length := by
  unfold classNeg
  split
  · simp
  · simp

theorem classScan_length {l cls after : List Char}
    (h : classScan l = some (cls, after)) : after.length < l.length := by
  unfold classScan at h
  split at h
  · rename_i t
    rcases hq : findClassEnd t with _ | ⟨cls1, rest1⟩
    · rw [hq] at h; simp at h
    · rw [hq] at h
      simp only [Option.map_some', Option.some.injEq, Prod.mk.injEq] at h
      have := findClassEnd_length hq
      rw [← h.2]
      simp only [List.length_cons]
      omega
  · have := findClassEnd_length h
    omega

/-- Parse a character class at a `[`: the characters after the `[` are
scanned for an optional leading `!` (negation), then a `]` directly after
that is a literal class member, then the class runs to the next `]`.
Returns `(negated, class body, remainder)`, or `none` when there is no
closing `]` (in which case the `[` is a literal character). -/
def splitClassSpec (rest : List Char) : Option (Bool × List Char × List Char) :=
  let p := classNeg rest
  (classScan p.2).map fun q => (p.1, q.1, q.2)

theorem splitClassSpec_length {rest : List Char} {neg : Bool}
    {cls after : List Char} (h : splitClassSpec rest = some (neg, cls, after)) :
    after.length < rest.length + 1 := by
  unfold splitClassSpec at h
  dsimp only at h
  rcases hq : classScan (classNeg rest).2 with _ | ⟨cls1, rest1⟩
  · rw [hq] at h; simp at h
  · rw [hq] at h
    simp only [Option.map_some', Option.some.injEq, Prod.mk.injEq] at h
    have h1 := classScan_length hq
    have h2 := classNeg_length rest
    rw [← h.2.2]
    omega

/-- Compile a glob pattern to tokens, by structural recursion on a fuel
bound.  Every step consumes at least one pattern character
(`splitClassSpec_length`), so fuel equal to the pattern length is enough
and the zero-fuel branch is unreachable; `compileGlobAux_fuel` below makes
this precise. -/
def compileGlobAux : Nat → List Char → List GlobToken
  | _, [] => []
  | 0, _ :: _ => []
  | fuel + 1, c :: rest =>
      if c = '*' then GlobToken.star :: compileGlobAux fuel rest
      else if c = '?' then GlobToken.anyChar :: compileGlobAux fuel rest
      else if c = '[' then
        match splitClassSpec rest with
        | none => GlobToken.lit '[' :: compileGlobAux fuel rest
        | some (neg, cls, after) =>
            GlobToken.cls neg cls :: compileGlobAux fuel after
      else GlobToken.lit c :: compileGlobAux fuel rest

/-- Compile a glob pattern (as a character list) to tokens. -/
def compileGlob (l : List Char) : List GlobToken := compileGlobAux l.length l

theorem compileGlobAux_fuel :
    ∀ (fuel1 fuel2 : Nat) (l : List Char), l.length ≤ fuel1 →
      l.length ≤ fuel2 → compileGlobAux fuel1 l = compileGlobAux fuel2 l := by
  intro fuel1
  induction fuel1 with
  | zero =>
      intro fuel2 l h1 _
      have : l = [] := List.length_eq_zero.mp (Nat.le_zero.mp h1)
      subst this
      cases fuel2 <;> rfl
  | succ f1 ih =>
      intro fuel2 l h1 h2
      cases l with
      | nil => cases fuel2 <;> rfl
      | cons c rest =>
          cases fuel2 with
          | zero => simp at h2
          | succ f2 =>
              simp only [List.length_cons, Nat.succ_le_succ_iff] at h1 h2
              simp only [compileGlobAux]
              by_cases hs : c = '*'
              · simp [hs, ih f2 rest h1 h2]
              · by_cases hq : c = '?'
                · simp [hs, hq, ih f2 rest h1 h2]
                · by_cases hb : c = '['
                  · simp only [hs, hq, hb, if_false, if_true]
                    rcases hsp : splitClassSpec rest with _ | ⟨neg, cls, after⟩
                    · simp [ih f2 rest h1 h2]
                    · have hlen := splitClassSpec_length hsp
                      have ha : after.length ≤ rest.length := by omega
                      simp [ih f2 after (le_trans ha h1) (le_trans ha h2)]
                  · simp [hs, hq, hb, ih f2 rest h1 h2]

/-- Membership of a character in a class body, with `a-b` ranges (a `-` at
either end of the body is a literal, as in Python's translation). -/
def charInClass : List Char → Char → Bool
  | a :: b :: c :: rest, ch =>
      if b = '-' then (a ≤ ch && ch ≤ c) || charInClass rest ch
      else a == ch || charInClass (b :: c :: rest) ch
  | a :: rest, ch => a == ch || charInClass rest ch
  | [], _ => false

/-- Match a compiled pattern against a character list, by structural
recursion on a fuel bound: every recursive call strictly decreases the sum
of the pattern length and the string length, so fuel equal to that sum is
enough and the zero-fuel branch is unreachable (`tokensMatchAux_fuel`). -/
def tokensMatchAux : Nat → List GlobToken → List Char → Bool
  | _, [], [] => true
  | _, [], _ :: _ => false
  | 0, _ :: _, _ => false
  | fuel + 1, GlobToken.star :: ts, [] => tokensMatchAux fuel ts []
  | fuel + 1, GlobToken.star :: ts, c :: cs =>
      tokensMatchAux fuel ts (c :: cs) ||
        tokensMatchAux fuel (GlobToken.star :: ts) cs
  | fuel + 1, GlobToken.anyChar :: ts, _ :: cs => tokensMatchAux fuel ts cs
  | fuel + 1, GlobToken.lit a :: ts, c :: cs =>
      a == c && tokensMatchAux fuel ts cs
  | fuel + 1, GlobToken.cls neg chars :: ts, c :: cs =>
      (charInClass chars c != neg) && tokensMatchAux fuel ts cs
  | _ + 1, _ :: _, [] => false

/-- Match a compiled pattern against a character list (whole-string match,
as `fnmatch.translate` anchors the regular expression at both ends). -/
def tokensMatch (ts : List GlobToken) (cs : List Char) : Bool :=
  tokensMatchAux (ts.length + cs.length) ts cs

theorem tokensMatchAux_fuel :
    ∀ (fuel1 fuel2 : Nat) (ts : List GlobToken) (cs : List Char),
      ts.length + cs.length ≤ fuel1 → ts.length + cs.length ≤ fuel2 →
      tokensMatchAux fuel1 ts cs = tokensMatchAux fuel2 ts cs := by
  intro fuel1
  induction fuel1 with
  | zero =>
      intro fuel2 ts cs h1 _
      have hts : ts = [] := List.length_eq_zero.mp (by omega)
      have hcs : cs = [] := List.length_eq_zero.mp (by omega)
      subst hts; subst hcs
      cases fuel2 <;> rfl
  | succ f1 ih =>
      intro fuel2 ts cs h1 h2
      cases ts with
      | nil => cases cs <;> cases fuel2 <;> rfl
      | cons t ts =>
          cases fuel2 with
          | zero => simp at h2
          | succ f2 =>
              simp only [List.length_cons] at h1 h2
              cases t with
              | star =>
                  cases cs with
                  | nil =>
                      simp only [tokensMatchAux]
                      exact ih f2 ts [] (by simp; omega) (by simp; omega)
                  | cons c cs =>
                      simp only [tokensMatchAux]
                      rw [ih f2 ts (c :: cs) (by simp at h1 ⊢; omega)
                            (by simp at h2 ⊢; omega),
                        ih f2 (GlobToken.star :: ts) cs (by simp at h1 ⊢; omega)
                            (by simp at h2 ⊢; omega)]
              | anyChar =>
                  cases cs with
                  | nil => rfl
                  | cons c cs =>
                      simp only [tokensMatchAux]
                      exact ih f2 ts cs (by simp at h1 ⊢; omega)
                        (by simp at h2 ⊢; omega)
              | lit a =>
                  cases cs with
                  | nil => rfl
                  | cons c cs =>
                      simp only [tokensMatchAux]
                      rw [ih f2 ts cs (by simp at h1 ⊢; omega)
                        (by simp at h2 ⊢; omega)]
              | cls neg chars =>
                  cases cs with
                  | nil => rfl
                  | cons c cs =>
                      simp only [tokensMatchAux]
                      rw [ih f2 ts cs (by simp at h1 ⊢; omega)
                        (by simp at h2 ⊢; omega)]

/-- Python `fnmatch.fnmatch(name, pattern)` on a POSIX system. -/
def fnmatch (name pattern : String) : Bool :=
  tokensMatch (compileGlob pattern.toList) name.toList

/-- `relative_path.parts` for a file modelled by its path relative to the
search root (components separated by `/`). -/
def pathParts (filepath : String) : List String :=
  strSplitOnChar '/' filepath

/-- Source `FileDiscovery._is_gitignored(filepath, base_path, patterns)`.
Files are modelled by their path relative to the search root, so
`filepath.relative_to(base_path)` is the identity and its `ValueError`
branch (file outside the root, never ignored) does not arise. -/
def is_gitignored (filepath : String) (gitignorePatterns : List String) :
    Bool :=
  let relativeStr := filepath
  let parts := pathParts filepath
  gitignorePatterns.any fun pattern =>
    if strEndsWithChar '/' pattern then
      parts.any fun part => fnmatch part (strDropLast pattern)
    else if strStartsWithChar '/' pattern then
      fnmatch relativeStr (strDropHead pattern)
    else
      fnmatch relativeStr pattern ||
        parts.dropLast.any fun part => fnmatch part pattern

/-- Source `PatternParts`: a glob with an optional content predicate. -/
structure PatternParts where
  glob : String
  content : Option String
deriving DecidableEq, Repr

/-- Source `FileDiscovery._parse_pattern(pattern)`: when `'::' in pattern`,
split at the first occurrence (`pattern.split('::', 1)`) into glob and
content halves; otherwise the whole pattern is the glob. -/
def parse_pattern (pattern : String) : PatternParts :=
  match splitFirstOn "::".toList pattern.toList with
  | none => { glob := pattern, content := none }
  | some (g, rest) => { glob := String.mk g, content := some (String.mk rest) }

/-- Source `FileDiscovery._parse_patterns(patterns)`: split the pattern list
into `(simple_globs, content_patterns)`.  An empty content part (`"x::"`) is
falsy in Python, so such a pattern lands in the simple globs as its glob
half, exactly as in the source. -/
def parse_patterns (patterns : List String) :
    List String × List PatternParts :=
  patterns.foldr
    (fun pattern acc =>
      let parsed := parse_pattern pattern
      match parsed.content with
      | some c =>
          if c = "" then (parsed.glob :: acc.1, acc.2)
          else (acc.1, parsed :: acc.2)
      | none => (parsed.glob :: acc.1, acc.2))
    ([], [])

/-- The filesystem as the discovery code observes it.  `globFiles pattern`
is the outcome of one iteration of the `try` body of
`_gather_files_by_glob` (the regular files matched by `base.glob(pattern)`
when the root is a directory, the root itself when it is a file matching
the pattern, or the raised exception for an invalid pattern);
`fileContains` is `_file_contains_pattern` (total: it handles unreadable
files and invalid regexes internally and returns `False` for binary files);
`gitignorePatterns` is the result of `_load_gitignore_patterns` (total:
empty when the file is missing or unreadable); `isBinary`, `sizeZero` and
`readProbe` are the three checks of `_validate_files`. -/
structure DiscoveryFs where
  basePath : String
  baseExists : Bool
  baseIsDir : Bool
  globFiles : String → Except String (List String)
  fileContains : String → String → Bool
  gitignorePatterns : List String
  isBinary : String → Bool
  sizeZero : String → Bool
  readProbe : String → Bool

/-- Source `FileDiscovery._gather_files_by_glob(base, patterns)`: a Python
set built up per pattern, one failing pattern being logged and skipped. -/
def gather_files_by_glob (fs : DiscoveryFs) (patterns : List String) :
    Finset String :=
  patterns.foldl
    (fun files pattern =>
      match fs.globFiles pattern with
      | Except.error _ => files
      | Except.ok ms => files ∪ ms.toFinset)
    ∅

/-- Source `FileDiscovery._gather_files_by_content(base, patterns)`. -/
def gather_files_by_content (fs : DiscoveryFs)
    (patterns : List PatternParts) : Finset String :=
  patterns.foldl
    (fun files patternParts =>
      files ∪
        (gather_files_by_glob fs [patternParts.glob]).filter
          (fun filepath =>
            fs.fileContains filepath (patternParts.content.getD "") = true))
    ∅

/-- Source `FileDiscovery._filter_gitignored(files, base, patterns)`. -/
def filter_gitignored (fs : DiscoveryFs) (files : Finset String) :
    Finset String :=
  if fs.gitignorePatterns = [] then files
  else files.filter fun f => is_gitignored f fs.gitignorePatterns = false

/-- Source `FileDiscovery._validate_files(files)`: drop binary, empty and
unreadable files, and return the survivors sorted. -/
def validate_files (fs : DiscoveryFs) (files : Finset String) : List String :=
  (files.filter fun p =>
      fs.isBinary p = false ∧ fs.sizeZero p = false ∧ fs.readProbe p = true).sort
    (fun a b => a ≤ b)

/-- Source `FileDiscovery.find_files(base_path, include_patterns,
exclude_patterns, respect_gitignore)`.  All fallible steps inside the outer
`try` are total in the model, so its `except` branch is unreachable and the
error list holds at most the missing-root message, as in the source. -/
def find_files (fs : DiscoveryFs) (includePatterns : List String)
    (excludePatterns : List String) (respectGitignore : Bool) :
    List String × List String :=
  if fs.baseExists = false then
    ([], ["Path does not exist: " ++ fs.basePath])
  else
    let parsedInclude := parse_patterns includePatterns
    let parsedExclude := parse_patterns excludePatterns
    let includedFiles :=
      gather_files_by_glob fs parsedInclude.1 ∪
        gather_files_by_content fs parsedInclude.2
    let excludedFiles := gather_files_by_glob fs parsedExclude.1
    let contentExcluded :=
      parsedExclude.2.foldl
        (fun acc pattern =>
          acc ∪
            (includedFiles ∩ gather_files_by_glob fs [pattern.glob]).filter
              (fun filepath =>
                fs.fileContains filepath (pattern.content.getD "") = true))
        ∅
    let finalFiles := includedFiles \ (excludedFiles ∪ contentExcluded)
    let finalFiles :=
      if respectGitignore && fs.baseIsDir then filter_gitignored fs finalFiles
      else finalFiles
    (validate_files fs finalFiles, [])

end FileDiscovery

/-! ## Compression executor (async_processor.py) -/

namespace AsyncProcessor

/-- One entry of the plan handed to the executor: the dict with keys
`path`, `tier`, `original_tokens`. -/
structure FileInfo where
  path : String
  tier : Nat
  originalTokens : Nat
deriving DecidableEq, Repr

/-- The per-file result dict.  A success result carries `summary` and no
`error` key; an error result carries `error` and no `summary` key:
absent keys are `none`. -/
structure ProcessingResult where
  path : String
  tier : Nat
  summary : Option String
  error : Option String
  success : Bool
  originalTokens : Nat
  compressedTokens : Nat
deriving DecidableEq, Repr

/-- Source `AsyncProcessor._create_success_result`. -/
def create_success_result (filepath : String) (tier : Nat) (content : String)
    (originalTokens compressedTokens : Nat) : ProcessingResult :=
  { path := filepath
    tier := tier
    summary := some content
    error := none
    success := true
    originalTokens := originalTokens
    compressedTokens := compressedTokens }

/-- Source `AsyncProcessor._create_error_result`. -/
def create_error_result (filepath : String) (tier : Nat)
    (originalTokens : Nat) (error : String) : ProcessingResult :=
  { path := filepath
    tier := tier
    summary := none
    error := some error
    success := false
    originalTokens := originalTokens
    compressedTokens := 0 }

/-- Right-aligned number formatting `f"{i:>{width}} "` used by
`_add_line_numbers` (padding with spaces on the left). -/
def padLeft (s : String) (width : Nat) : String :=
  String.mk (List.replicate (width - s.length) ' ') ++ s

/-- Source `AsyncProcessor._add_line_numbers(content)`. -/
def add_line_numbers (content : String) : String :=
  let lines := strSplitOnChar '\n' content
  let maxLineNum := lines.length
  let lineNumWidth := (toString maxLineNum).length
  strJoin "\n"
    (lines.enum.map fun p =>
      padLeft (toString (p.1 + 1)) lineNumWidth ++ "│ " ++ p.2)

/-- The executor's external collaborators, as explicit inputs:
`readFile` models `open(filepath).read()` (the raised exception text on
failure); `transform` models `_get_compression_prompt` + the `acompletion`
call of `_compress_file` for a given (path, content, tier), i.e. the external
transformation service (the raised exception text on unrecovered failure);
`countTokens` models `self.tokenizer.count_tokens` (total — the tokenizer
has an internal character-based fallback and returns an integer);
`shouldAddLineNumbers` models `_should_add_line_numbers(filepath, base_path)`
for the processor's configured patterns and base path; `isDocExt` models
`Path(filepath).suffix.lower() in DOC_EXTENSIONS`. -/
structure ExecEnv where
  readFile : String → Except String String
  transform : String → String → Nat → Except String String
  countTokens : String → Nat
  shouldAddLineNumbers : String → Bool
  isDocExt : String → Bool

/-- Source `AsyncProcessor._handle_uncompressed_file`. -/
def handle_uncompressed_file (env : ExecEnv) (filepath content : String)
    (tier originalTokens : Nat) : ProcessingResult :=
  let content :=
    if !env.isDocExt filepath && env.shouldAddLineNumbers filepath then
      add_line_numbers content
    else content
  create_success_result filepath tier content originalTokens originalTokens

/-- Source `AsyncProcessor._process_single_file(file_info, base_path)`:
the whole body runs under `try/except Exception`, so a read failure or a
transformation failure becomes an error result for this file only. -/
def process_single_file (env : ExecEnv) (fileInfo : FileInfo) :
    ProcessingResult :=
  match env.readFile fileInfo.path with
  | Except.error e =>
      create_error_result fileInfo.path fileInfo.tier fileInfo.originalTokens e
  | Except.ok content =>
      if fileInfo.tier = 100 then
        handle_uncompressed_file env fileInfo.path content fileInfo.tier
          fileInfo.originalTokens
      else if fileInfo.originalTokens ≤ 100 then
        create_success_result fileInfo.path fileInfo.tier content
          fileInfo.originalTokens fileInfo.originalTokens
      else
        match env.transform fileInfo.path content fileInfo.tier with
        | Except.error e =>
            create_error_result fileInfo.path fileInfo.tier
              fileInfo.originalTokens e
        | Except.ok summary =>
            create_success_result fileInfo.path fileInfo.tier summary
              fileInfo.originalTokens (env.countTokens summary)

/-- Source `AsyncProcessor.process_files_with_plan(files_plan, base_path)`:
one task per plan entry, each producing exactly one result.  The source
collects results in completion order; the embedding fixes input order (the
same multiset of per-file results, each computed independently). -/
def process_files_with_plan (env : ExecEnv) (filesPlan : List FileInfo) :
    List ProcessingResult :=
  filesPlan.map (process_single_file env)

end AsyncProcessor

/-! ## Helper lemmas -/

namespace Planner

theorem dictLookup_foldl_mem {k : String} {v : Nat} :
    ∀ (files : List (String × Nat)) (init : Option Nat),
      files.foldl (fun acc kv => if kv.1 == k then some kv.2 else acc) init
        = some v →
      (k, v) ∈ files ∨ init = some v := by
  intro files
  induction files with
  | nil => intro init h; exact Or.inr h
  | cons kv rest ih =>
      intro init h
      rcases ih _ h with hmem | hinit
      · exact Or.inl (List.mem_cons_of_mem _ hmem)
      · dsimp only at hinit
        by_cases hk : kv.1 == k
        · rw [if_pos hk] at hinit
          have : kv = (k, v) := by
            rcases kv with ⟨a, b⟩
            simp only [beq_iff_eq] at hk
            simp only [Option.some.injEq] at hinit
            simp [hk, hinit]
          exact Or.inl (this ▸ List.mem_cons_self _ _)
        · rw [if_neg hk] at hinit
          exact Or.inr hinit

theorem dictLookup_mem {files : List (String × Nat)} {k : String} {v : Nat}
    (h : dictLookup files k = some v) : (k, v) ∈ files := by
  rcases dictLookup_foldl_mem files none h with hmem | hinit
  · exact hmem
  · simp at hinit

theorem dictLookup_foldl_none {k : String} :
    ∀ (files : List (String × Nat)) (init : Option Nat),
      (∀ kv ∈ files, kv.1 ≠ k) →
      files.foldl (fun acc kv => if kv.1 == k then some kv.2 else acc) init
        = init := by
  intro files
  induction files with
  | nil => intro init _; rfl
  | cons kv rest ih =>
      intro init hne
      have h1 : ¬(kv.1 == k) = true := by
        simp only [beq_iff_eq]
        exact hne kv (List.mem_cons_self _ _)
      simp only [List.foldl_cons, if_neg h1]
      exact ih init fun x hx => hne x (List.mem_cons_of_mem _ hx)

theorem dictLookup_eq_none {files : List (String × Nat)} {k : String}
    (h : k ∉ files.map Prod.fst) : dictLookup files k = none := by
  apply dictLookup_foldl_none
  intro kv hkv hEq
  exact h (List.mem_map.mpr ⟨kv, hkv, hEq⟩)

theorem dictLookup_foldl_isSome {k : String} :
    ∀ (files : List (String × Nat)) (init : Option Nat),
      init.isSome = true →
      (files.foldl (fun acc kv => if kv.1 == k then some kv.2 else acc)
        init).isSome = true := by
  intro files
  induction files with
  | nil => intro init h; exact h
  | cons kv rest ih =>
      intro init h
      simp only [List.foldl_cons]
      by_cases hk : (kv.1 == k) = true
      · exact ih _ (by simp [hk])
      · exact ih _ (by simp [hk, h])

theorem dictLookup_isSome {files : List (String × Nat)} {k : String}
    (h : k ∈ files.map Prod.fst) : (dictLookup files k).isSome = true := by
  rcases List.mem_map.mp h with ⟨kv, hkv, hfst⟩
  rcases List.append_of_mem hkv with ⟨pre, post, rfl⟩
  unfold dictLookup
  rw [List.foldl_append, List.foldl_cons]
  apply dictLookup_foldl_isSome
  simp [hfst]

theorem estimate_mid_mono (n a b : Nat) (h : a ≤ b) :
    min (max 100 (n * a / 100)) n ≤ min (max 100 (n * b / 100)) n :=
  min_le_min
    (max_le_max le_rfl (Nat.div_le_div_right (Nat.mul_le_mul (le_refl n) h)))
    le_rfl

end Planner

namespace Summarizer

theorem lookup_assignFilesAtTier (fm : String → String → Bool)
    (pats : List String) (tier : Nat) (f : String) :
    ∀ (files : List String) (acc : List (String × Nat)),
      ((assignFilesAtTier fm pats tier files acc).lookup f)
        = ((acc.lookup f).or
            (if f ∈ files ∧ pats.any (fun p => fm f p) = true
              then some tier else none)) := by
  intro files
  induction files with
  | nil =>
      intro acc
      simp only [assignFilesAtTier, List.foldl_nil, List.not_mem_nil,
        false_and, if_false]
      cases acc.lookup f <;> rfl
  | cons g gs ih =>
      intro acc
      have hstep : assignFilesAtTier fm pats tier (g :: gs) acc
          = assignFilesAtTier fm pats tier gs
              (if (acc.lookup g).isSome then acc
               else if pats.any (fun pattern => fm g pattern) then
                 (g, tier) :: acc
               else acc) := rfl
      rw [hstep, ih]
      by_cases hacc : (acc.lookup g).isSome = true
      · rw [if_pos hacc]
        by_cases hfg : f = g
        · subst hfg
          rcases hv : acc.lookup f with _ | v
          · rw [hv] at hacc; simp at hacc
          · rfl
        · have hmem : (f ∈ g :: gs ∧ pats.any (fun p => fm f p) = true)
              ↔ (f ∈ gs ∧ pats.any (fun p => fm f p) = true) := by
            simp [List.mem_cons, hfg]
          rw [if_congr hmem rfl rfl]
      · rw [if_neg hacc]
        have hnone : acc.lookup g = none := by
          rcases hv : acc.lookup g with _ | v
          · rfl
          · rw [hv] at hacc; simp at hacc
        by_cases hany : pats.any (fun pattern => fm g pattern) = true
        · rw [if_pos hany]
          by_cases hfg : f = g
          · subst hfg
            have hl : ((f, tier) :: acc).lookup f = some tier := by
              simp [List.lookup]
            rw [hl, hnone]
            have hc : (f ∈ f :: gs ∧ pats.any (fun p => fm f p) = true) := by
              exact ⟨List.mem_cons_self _ _, hany⟩
            rw [if_pos hc]
            rfl
          · have hbe : (f == g) = false := by
              simp [hfg]
            have hl : ((g, tier) :: acc).lookup f = acc.lookup f := by
              simp [List.lookup, hbe]
            rw [hl]
            have hmem : (f ∈ g :: gs ∧ pats.any (fun p => fm f p) = true)
                ↔ (f ∈ gs ∧ pats.any (fun p => fm f p) = true) := by
              simp [List.mem_cons, hfg]
            rw [if_congr hmem rfl rfl]
        · rw [if_neg hany]
          by_cases hfg : f = g
          · subst hfg
            have h1 : ¬(f ∈ gs ∧ pats.any (fun p => fm f p) = true) :=
              fun hc => hany hc.2
            have h2 : ¬(f ∈ f :: gs ∧ pats.any (fun p => fm f p) = true) :=
              fun hc => hany hc.2
            rw [if_neg h1, if_neg h2]
          · have hmem : (f ∈ g :: gs ∧ pats.any (fun p => fm f p) = true)
                ↔ (f ∈ gs ∧ pats.any (fun p => fm f p) = true) := by
              simp [List.mem_cons, hfg]
            rw [if_congr hmem rfl rfl]

theorem lookup_tier_foldl (fm : String → String → Bool)
    (config : List (String × Nat)) (files : List String) (f : String) :
    ∀ (ts : List Nat) (acc : List (String × Nat)),
      ((ts.foldl
          (fun acc tier =>
            assignFilesAtTier fm (patterns_for_tier config tier) tier files
              acc)
          acc).lookup f)
        = ((acc.lookup f).or
            (ts.find? fun tier =>
              decide (f ∈ files) &&
                (patterns_for_tier config tier).any fun p => fm f p)) := by
  intro ts
  induction ts with
  | nil =>
      intro acc
      simp only [List.foldl_nil, List.find?_nil]
      cases acc.lookup f <;> rfl
  | cons t ts ih =>
      intro acc
      rw [List.foldl_cons, ih, lookup_assignFilesAtTier]
      by_cases hp : (decide (f ∈ files) &&
          (patterns_for_tier config t).any fun p => fm f p) = true
      · have hc : f ∈ files ∧
            (patterns_for_tier config t).any (fun p => fm f p) = true := by
          simpa [Bool.and_eq_true, decide_eq_true_iff] using hp
        have hfind : List.find?
            (fun tier => decide (f ∈ files) &&
              (patterns_for_tier config tier).any fun p => fm f p)
            (t :: ts) = some t := List.find?_cons_of_pos _ hp
        rw [if_pos hc, hfind]
        cases acc.lookup f <;> rfl
      · have hc : ¬(f ∈ files ∧
            (patterns_for_tier config t).any (fun p => fm f p) = true) := by
          intro hcc
          exact hp (by simp [Bool.and_eq_true, decide_eq_true_iff, hcc.1,
            hcc.2])
        have hfind : List.find?
            (fun tier => decide (f ∈ files) &&
              (patterns_for_tier config tier).any fun p => fm f p)
            (t :: ts)
          = List.find?
            (fun tier => decide (f ∈ files) &&
              (patterns_for_tier config tier).any fun p => fm f p)
            ts := List.find?_cons_of_neg _ hp
        rw [if_neg hc, hfind]
        cases acc.lookup f <;> rfl

theorem lookup_build_user_compression_mapping
    (fm : String → String → Bool) (config : List (String × Nat))
    (files : List String) (f : String) :
    (build_user_compression_mapping fm config files).lookup f
      = (all_tiers config).find? fun tier =>
          decide (f ∈ files) &&
            (patterns_for_tier config tier).any fun p => fm f p := by
  unfold build_user_compression_mapping
  rw [lookup_tier_foldl]
  rfl

theorem find?_sorted_min {ts : List Nat}
    (hs : ts.Sorted (fun a b => a ≤ b)) {p : Nat → Bool} {t : Nat}
    (hf : ts.find? p = some t) :
    ∀ t' ∈ ts, p t' = true → t ≤ t' := by
  induction ts with
  | nil => simp at hf
  | cons a ts ih =>
      have hs' := (List.sorted_cons.mp hs)
      by_cases hp : p a = true
      · rw [List.find?_cons_of_pos _ hp] at hf
        have ht : t = a := by simpa using hf.symm
        subst ht
        intro t' ht' _
        rcases List.mem_cons.mp ht' with rfl | hmem
        · exact le_refl _
        · exact hs'.1 t' hmem
      · rw [List.find?_cons_of_neg _ hp] at hf
        intro t' ht' hpt'
        rcases List.mem_cons.mp ht' with rfl | hmem
        · exact absurd hpt' hp
        · exact ih hs'.2 hf t' hmem hpt'

theorem mem_all_tiers {config : List (String × Nat)} {t : Nat} :
    t ∈ all_tiers config ↔ t ∈ config.map Prod.snd := by
  unfold all_tiers
  rw [(List.perm_insertionSort _ _).mem_iff, List.mem_dedup]

theorem sorted_all_tiers (config : List (String × Nat)) :
    (all_tiers config).Sorted fun a b => a ≤ b :=
  List.sorted_insertionSort _ _

theorem mem_patterns_for_tier {config : List (String × Nat)} {t : Nat}
    {pat : String} :
    pat ∈ patterns_for_tier config t ↔ (pat, t) ∈ config := by
  unfold patterns_for_tier
  simp only [List.mem_map, List.mem_filter, beq_iff_eq]
  constructor
  · rintro ⟨⟨a, b⟩, ⟨hmem, hb⟩, hfst⟩
    simp only at hfst hb
    subst hfst; subst hb
    exact hmem
  · intro hmem
    exact ⟨(pat, t), ⟨hmem, rfl⟩, rfl⟩

end Summarizer

/-! ## Claims about the planner -/

/-- C2: For every tier in {100, 95, 85, 50, 10, 0} and every
original_tokens ≥ 0, Estimate returns: original_tokens at tier 100;
min(100, original_tokens) at tier 0; otherwise original_tokens × tier / 100
(integer-truncated) clamped below by 100 and above by original_tokens — and
the summarizer's copy of the estimator computes the same function. -/
theorem estimate_matches_specification (n : Nat) :
    Planner.estimate_file_tokens n 100 = n
    ∧ Planner.estimate_file_tokens n 0 = min 100 n
    ∧ Planner.estimate_file_tokens n 95 = min (max 100 (n * 95 / 100)) n
    ∧ Planner.estimate_file_tokens n 85 = min (max 100 (n * 85 / 100)) n
    ∧ Planner.estimate_file_tokens n 50 = min (max 100 (n * 50 / 100)) n
    ∧ Planner.estimate_file_tokens n 10 = min (max 100 (n * 10 / 100)) n
    ∧ ∀ t, Summarizer.get_estimated_tokens none n t
        = Planner.estimate_file_tokens n t := by
  refine ⟨rfl, rfl, rfl, rfl, rfl, rfl, fun t => rfl⟩

/-- C6: For fixed original_tokens, Estimate(tier, original_tokens) is
non-decreasing as tier increases across the ordered scale
{0, 10, 50, 85, 95, 100}. -/
theorem estimate_monotone_in_tier (n : Nat) :
    Planner.estimate_file_tokens n 0 ≤ Planner.estimate_file_tokens n 10
    ∧ Planner.estimate_file_tokens n 10 ≤ Planner.estimate_file_tokens n 50
    ∧ Planner.estimate_file_tokens n 50 ≤ Planner.estimate_file_tokens n 85
    ∧ Planner.estimate_file_tokens n 85 ≤ Planner.estimate_file_tokens n 95
    ∧ Planner.estimate_file_tokens n 95 ≤ Planner.estimate_file_tokens n 100
    := by
  refine ⟨?_, ?_, ?_, ?_, ?_⟩
  · show min 100 n ≤ min (max 100 (n * 10 / 100)) n
    exact le_min (le_trans (min_le_left _ _) (le_max_left _ _))
      (min_le_right _ _)
  · exact Planner.estimate_mid_mono n 10 50 (by norm_num)
  · exact Planner.estimate_mid_mono n 50 85 (by norm_num)
  · exact Planner.estimate_mid_mono n 85 95 (by norm_num)
  · show min (max 100 (n * 95 / 100)) n ≤ n
    exact min_le_right _ _

/-- C1 (code bug evidence): an adversarial oracle proposal whose recomputed
Estimate total (1000) exceeds the effective budget (450) is still returned
by make_plan with validity = true: the result builder never compares the
recomputed total against the effective budget. -/
theorem plan_accepted_over_budget :
    ∃ r : Planner.PlanResult,
      Planner.make_plan [("a.py", 1000)] 500 10 []
          (Except.ok
            { toolCalls :=
                [⟨Except.ok [{ path := "a.py", originalTokens := 1000,
                               tier := 100 }]⟩],
              content := none })
        = Except.ok r
      ∧ r.valid = true
      ∧ Planner.planFilesEstimate (r.files.getD []) = 1000
      ∧ Planner.apply_buffer_to_budget 500 10 = 450
      ∧ 450 < 1000 := by
  exact ⟨_, rfl, rfl, by decide, by decide, by decide⟩

/-- C4 (counterexample): an oracle response whose tool-call arguments cannot
be parsed makes make_plan raise (the logged exception is re-raised), rather
than returning an invalid plan value. -/
theorem make_plan_raises_on_unparsable_proposal :
    Planner.make_plan [] 100 10 []
        (Except.ok
          { toolCalls :=
              [{ arguments :=
                  Except.error "Expecting value: line 1 column 1 (char 0)" }],
            content := none })
      = Except.error "Expecting value: line 1 column 1 (char 0)" := rfl

/-- C4 (amended): for every oracle response that either carries no tool call
or carries a parsable proposal, make_plan returns a plan value; in the
no-tool-call case the plan has validity = false and the descriptive error
reason "Model did not generate a proper plan".  (An unparsable proposal
instead propagates as an exception, see the counterexample.) -/
theorem make_plan_value_on_wellformed_response
    (files : List (String × Nat)) (budget bufferPercent : Nat)
    (fixedFiles : List Planner.PlanFile) (content : Option String)
    (planFiles : List Planner.PlanFile) (rest : List Planner.ToolCall) :
    Planner.make_plan files budget bufferPercent fixedFiles
        (Except.ok { toolCalls := [], content := content })
      = Except.ok (Planner.create_error_result
          "Model did not generate a proper plan" content)
    ∧ (Planner.create_error_result "Model did not generate a proper plan"
        content).valid = false
    ∧ (Planner.create_error_result "Model did not generate a proper plan"
        content).error = some "Model did not generate a proper plan"
    ∧ ∃ r, Planner.make_plan files budget bufferPercent fixedFiles
          (Except.ok
            { toolCalls := { arguments := Except.ok planFiles } :: rest,
              content := content })
        = Except.ok r := by
  exact ⟨rfl, rfl, rfl, ⟨_, rfl⟩⟩

/-- C10: in the plan dictionary built from an oracle proposal, an entry
whose path occurs in the input candidate list records the candidate list's
own token count for original_tokens (overriding the oracle's self-reported
count), while an entry whose path does not occur in the candidate list is
retained unchanged, with the oracle's self-reported original_tokens. -/
theorem plan_entries_token_source
    (planData : List Planner.PlanFile) (files : List (String × Nat))
    (fixedFiles : List Planner.PlanFile)
    (fixedTokens totalEstimated budget effectiveBudget bufferPercent : Nat)
    (reasoning : Option String) (fp : Planner.PlanFile)
    (hmemb : fp ∈ planData) :
    (fp.path ∈ files.map Prod.fst →
      ∃ v, Planner.dictLookup files fp.path = some v ∧ (fp.path, v) ∈ files
        ∧ ({ path := fp.path, originalTokens := v, tier := fp.tier } :
            Planner.PlanFile) ∈
            ((Planner.build_plan_result planData files fixedFiles fixedTokens
              totalEstimated budget effectiveBudget bufferPercent
              reasoning).files.getD []))
    ∧ (fp.path ∉ files.map Prod.fst →
        fp ∈ ((Planner.build_plan_result planData files fixedFiles fixedTokens
          totalEstimated budget effectiveBudget bufferPercent
          reasoning).files.getD [])) := by
  constructor
  · intro hin
    have hs := Planner.dictLookup_isSome hin
    rcases ho : Planner.dictLookup files fp.path with _ | v
    · rw [ho] at hs; simp at hs
    · refine ⟨v, rfl, Planner.dictLookup_mem ho, ?_⟩
      simp only [Planner.build_plan_result, Option.getD_some]
      apply List.mem_append_left
      apply List.mem_map.mpr
      exact ⟨fp, hmemb, by simp [ho]⟩
  · intro hout
    have ho := Planner.dictLookup_eq_none hout
    simp only [Planner.build_plan_result, Option.getD_some]
    apply List.mem_append_left
    apply List.mem_map.mpr
    refine ⟨fp, hmemb, ?_⟩
    rcases fp with ⟨p, o, t⟩
    simp [ho]

/-- C7: when a file of the discovered list matches user compression
patterns configured at more than one tier, the user-compression mapping
assigns it exactly the numerically lowest matching tier: the assigned tier
is itself a matching tier, and is ≤ every tier having a matching pattern in
the configuration. -/
theorem user_compression_lowest_tier_wins
    (fm : String → String → Bool) (config : List (String × Nat))
    (files : List String) (f pattern0 : String) (t0 : Nat)
    (hf : f ∈ files) (hp0 : (pattern0, t0) ∈ config)
    (hm0 : fm f pattern0 = true) :
    ∃ t, (Summarizer.build_user_compression_mapping fm config files).lookup f
        = some t
      ∧ (∃ pat, (pat, t) ∈ config ∧ fm f pat = true)
      ∧ ∀ pat' t', (pat', t') ∈ config → fm f pat' = true → t ≤ t' := by
  have hlookup :=
    Summarizer.lookup_build_user_compression_mapping fm config files f
  have hp0' : (fun tier => decide (f ∈ files) &&
      (Summarizer.patterns_for_tier config tier).any fun p => fm f p) t0
      = true := by
    simp only [Bool.and_eq_true, decide_eq_true_iff, List.any_eq_true]
    exact ⟨hf, pattern0, Summarizer.mem_patterns_for_tier.mpr hp0, hm0⟩
  have ht0mem : t0 ∈ Summarizer.all_tiers config :=
    Summarizer.mem_all_tiers.mpr (List.mem_map.mpr ⟨(pattern0, t0), hp0, rfl⟩)
  rcases hfind : (Summarizer.all_tiers config).find?
      (fun tier => decide (f ∈ files) &&
        (Summarizer.patterns_for_tier config tier).any fun p => fm f p)
    with _ | t
  · exact absurd hp0' (List.find?_eq_none.mp hfind t0 ht0mem)
  · refine ⟨t, hlookup.trans hfind, ?_, ?_⟩
    · have hpt := List.find?_some hfind
      simp only [Bool.and_eq_true, decide_eq_true_iff, List.any_eq_true]
        at hpt
      rcases hpt.2 with ⟨pat, hpat, hfm⟩
      exact ⟨pat, Summarizer.mem_patterns_for_tier.mp hpat, hfm⟩
    · intro pat' t' hmem' hfm'
      have hp' : (fun tier => decide (f ∈ files) &&
          (Summarizer.patterns_for_tier config tier).any fun p => fm f p) t'
          = true := by
        simp only [Bool.and_eq_true, decide_eq_true_iff, List.any_eq_true]
        exact ⟨hf, pat', Summarizer.mem_patterns_for_tier.mpr hmem', hfm'⟩
      have ht'mem : t' ∈ Summarizer.all_tiers config :=
        Summarizer.mem_all_tiers.mpr
          (List.mem_map.mpr ⟨(pat', t'), hmem', rfl⟩)
      exact Summarizer.find?_sorted_min (Summarizer.sorted_all_tiers config)
        hfind t' ht'mem hp'

/-- Witness for C7: with patterns at tiers 95 and 0 both matching the file
(an always-true matcher), the mapping resolves the file to tier 0. -/
theorem user_compression_lowest_tier_wins_witness :
    ("notes.md" ∈ (["notes.md"] : List String))
    ∧ (("docs/*", 95) ∈ ([("docs/*", 95), ("*.md", 0)] : List (String × Nat)))
    ∧ ((fun _ _ => true : String → String → Bool) "notes.md" "docs/*" = true)
    ∧ (∃ t, (Summarizer.build_user_compression_mapping (fun _ _ => true)
          [("docs/*", 95), ("*.md", 0)] ["notes.md"]).lookup "notes.md"
        = some t
      ∧ (∃ pat, (pat, t) ∈ ([("docs/*", 95), ("*.md", 0)] :
            List (String × Nat))
          ∧ (fun _ _ => true : String → String → Bool) "notes.md" pat = true)
      ∧ ∀ pat' t', (pat', t') ∈ ([("docs/*", 95), ("*.md", 0)] :
            List (String × Nat))
          → (fun _ _ => true : String → String → Bool) "notes.md" pat' = true
          → t ≤ t')
    ∧ (Summarizer.build_user_compression_mapping (fun _ _ => true)
        [("docs/*", 95), ("*.md", 0)] ["notes.md"]).lookup "notes.md"
      = some 0 :=
  ⟨by decide, by decide, rfl,
    user_compression_lowest_tier_wins (fun _ _ => true)
      [("docs/*", 95), ("*.md", 0)] ["notes.md"] "notes.md" "docs/*" 95
      (by decide) (by decide) rfl,
    by decide⟩

/-! ## Claims about file discovery -/

/-- C8: with gitignore filtering enabled and the root a directory, no file
matching a .gitignore pattern — under the three matching modes: trailing
`/` matches a directory name at any depth, leading `/` anchors the pattern
at the root, any other pattern matches the whole relative path or any
ancestor directory segment — appears in the discovery result, even a file
pulled in by an include-by-content pattern. -/
theorem gitignored_files_excluded
    (fs : FileDiscovery.DiscoveryFs)
    (includePatterns excludePatterns : List String) (f : String)
    (hdir : fs.baseIsDir = true)
    (hmatch : ∃ pattern ∈ fs.gitignorePatterns,
      (strEndsWithChar '/' pattern = true ∧
        ∃ part ∈ FileDiscovery.pathParts f,
          FileDiscovery.fnmatch part (strDropLast pattern) = true)
      ∨ (strEndsWithChar '/' pattern = false ∧
          strStartsWithChar '/' pattern = true ∧
          FileDiscovery.fnmatch f (strDropHead pattern) = true)
      ∨ (strEndsWithChar '/' pattern = false ∧
          strStartsWithChar '/' pattern = false ∧
          (FileDiscovery.fnmatch f pattern = true ∨
            ∃ part ∈ (FileDiscovery.pathParts f).dropLast,
              FileDiscovery.fnmatch part pattern = true))) :
    f ∉ (FileDiscovery.find_files fs includePatterns excludePatterns
      true).1 := by
  have hgit : FileDiscovery.is_gitignored f fs.gitignorePatterns = true := by
    unfold FileDiscovery.is_gitignored
    rw [List.any_eq_true]
    obtain ⟨pattern, hpmem, hcase⟩ := hmatch
    refine ⟨pattern, hpmem, ?_⟩
    rcases hcase with ⟨hend, part, hpart, hfm⟩ |
        ⟨hend, hstart, hfm⟩ | ⟨hend, hstart, hfm⟩
    · rw [if_pos hend, List.any_eq_true]
      exact ⟨part, hpart, hfm⟩
    · rw [if_neg (by simp [hend]), if_pos hstart]
      exact hfm
    · rw [if_neg (by simp [hend]), if_neg (by simp [hstart])]
      rcases hfm with hfull | ⟨part, hpart, hfm⟩
      · simp [hfull]
      · rw [Bool.or_eq_true, List.any_eq_true]
        exact Or.inr ⟨part, hpart, hfm⟩
  have hne : fs.gitignorePatterns ≠ [] := by
    obtain ⟨pattern, hpmem, _⟩ := hmatch
    intro h
    rw [h] at hpmem
    simp at hpmem
  intro hmem
  unfold FileDiscovery.find_files at hmem
  by_cases hex : fs.baseExists = false
  · rw [if_pos hex] at hmem
    simp at hmem
  · rw [if_neg hex] at hmem
    simp only [hdir, Bool.and_self, if_true, true_and] at hmem
    simp only [FileDiscovery.validate_files, FileDiscovery.filter_gitignored,
      if_neg hne, Finset.mem_sort, Finset.mem_filter] at hmem
    rw [hmem.1.2] at hgit
    exact Bool.false_ne_true hgit

/-- Witness for C8: a file matched only by an include-by-content pattern
but sitting in a gitignored directory (pattern "build/") is absent from the
discovery result. -/
theorem gitignored_files_excluded_witness :
    ((⟨"repo", true, true,
        fun p => if p == "**/*.txt" then Except.ok ["build/out.txt"]
          else Except.ok [],
        fun _ _ => true, ["build/"], fun _ => false, fun _ => false,
        fun _ => true⟩ : FileDiscovery.DiscoveryFs).baseIsDir = true)
    ∧ (∃ pattern ∈ (["build/"] : List String),
        (strEndsWithChar '/' pattern = true ∧
          ∃ part ∈ FileDiscovery.pathParts "build/out.txt",
            FileDiscovery.fnmatch part (strDropLast pattern) = true)
        ∨ (strEndsWithChar '/' pattern = false ∧
            strStartsWithChar '/' pattern = true ∧
            FileDiscovery.fnmatch "build/out.txt" (strDropHead pattern)
              = true)
        ∨ (strEndsWithChar '/' pattern = false ∧
            strStartsWithChar '/' pattern = false ∧
            (FileDiscovery.fnmatch "build/out.txt" pattern = true ∨
              ∃ part ∈ (FileDiscovery.pathParts "build/out.txt").dropLast,
                FileDiscovery.fnmatch part pattern = true)))
    ∧ "build/out.txt" ∉ (FileDiscovery.find_files
        ⟨"repo", true, true,
          fun p => if p == "**/*.txt" then Except.ok ["build/out.txt"]
            else Except.ok [],
          fun _ _ => true, ["build/"], fun _ => false, fun _ => false,
          fun _ => true⟩
        ["**/*.txt::secret"] [] true).1 :=
  ⟨rfl, by decide,
    gitignored_files_excluded
      ⟨"repo", true, true,
        fun p => if p == "**/*.txt" then Except.ok ["build/out.txt"]
          else Except.ok [],
        fun _ _ => true, ["build/"], fun _ => false, fun _ => false,
        fun _ => true⟩
      ["**/*.txt::secret"] [] "build/out.txt" rfl (by decide)⟩

/-- C9: find_files is a total function of the observed filesystem: a
missing root yields an empty file list together with the error message
naming the path; the returned list is sorted; every returned file passed
the binary, emptiness and readability checks (unreadable files are skipped
without aborting the rest); and an include pattern whose glob evaluation
raises is skipped without affecting the files contributed by the other
patterns. -/
theorem find_files_error_handling
    (fs : FileDiscovery.DiscoveryFs)
    (includePatterns excludePatterns : List String)
    (respectGitignore : Bool) (p e : String) :
    (fs.baseExists = false →
      FileDiscovery.find_files fs includePatterns excludePatterns
          respectGitignore
        = ([], ["Path does not exist: " ++ fs.basePath]))
    ∧ ((FileDiscovery.find_files fs includePatterns excludePatterns
        respectGitignore).1.Sorted fun a b => a ≤ b)
    ∧ (∀ f ∈ (FileDiscovery.find_files fs includePatterns excludePatterns
        respectGitignore).1,
        fs.isBinary f = false ∧ fs.sizeZero f = false
          ∧ fs.readProbe f = true)
    ∧ ((FileDiscovery.parse_pattern p).content = none →
        fs.globFiles p = Except.error e →
        FileDiscovery.find_files fs (p :: includePatterns) excludePatterns
            respectGitignore
          = FileDiscovery.find_files fs includePatterns excludePatterns
              respectGitignore) := by
  refine ⟨?_, ?_, ?_, ?_⟩
  · intro h
    unfold FileDiscovery.find_files
    rw [if_pos h]
  · unfold FileDiscovery.find_files
    by_cases hex : fs.baseExists = false
    · rw [if_pos hex]
      simp
    · rw [if_neg hex]
      exact Finset.sort_sorted _ _
  · intro f hmem
    unfold FileDiscovery.find_files at hmem
    by_cases hex : fs.baseExists = false
    · rw [if_pos hex] at hmem
      simp at hmem
    · rw [if_neg hex] at hmem
      simp only [FileDiscovery.validate_files, Finset.mem_sort,
        Finset.mem_filter] at hmem
      exact hmem.2
  · intro hplain herr
    have hparse : FileDiscovery.parse_pattern p
        = { glob := p, content := none } := by
      unfold FileDiscovery.parse_pattern at hplain ⊢
      rcases hs : splitFirstOn "::".toList p.toList with _ | ⟨g, rest⟩
      · rfl
      · rw [hs] at hplain
        simp at hplain
    have hpp : FileDiscovery.parse_patterns (p :: includePatterns)
        = (p :: (FileDiscovery.parse_patterns includePatterns).1,
           (FileDiscovery.parse_patterns includePatterns).2) := by
      unfold FileDiscovery.parse_patterns
      rw [List.foldr_cons, hparse]
    have hgather : ∀ globs : List String,
        FileDiscovery.gather_files_by_glob fs (p :: globs)
          = FileDiscovery.gather_files_by_glob fs globs := by
      intro globs
      unfold FileDiscovery.gather_files_by_glob
      rw [List.foldl_cons, herr]
    unfold FileDiscovery.find_files
    by_cases hex : fs.baseExists = false
    · rw [if_pos hex, if_pos hex]
    · rw [if_neg hex, if_neg hex, hpp]
      simp only [hgather]

/-- Witness for C9 at a concrete filesystem whose root is missing and whose
glob evaluation always raises: the missing-root error is reported as a
value, the (empty) result is sorted and validated, and dropping the failing
pattern does not change the outcome. -/
theorem find_files_error_handling_witness :
    ((⟨"gone", false, false, fun _ => Except.error "boom", fun _ _ => false,
        [], fun _ => false, fun _ => false, fun _ => false⟩ :
        FileDiscovery.DiscoveryFs).baseExists = false)
    ∧ ((FileDiscovery.parse_pattern "*.py").content = none)
    ∧ ((⟨"gone", false, false, fun _ => Except.error "boom",
        fun _ _ => false, [], fun _ => false, fun _ => false,
        fun _ => false⟩ :
        FileDiscovery.DiscoveryFs).globFiles "*.py" = Except.error "boom")
    ∧ (((⟨"gone", false, false, fun _ => Except.error "boom",
          fun _ _ => false, [], fun _ => false, fun _ => false,
          fun _ => false⟩ : FileDiscovery.DiscoveryFs).baseExists = false →
        FileDiscovery.find_files
          ⟨"gone", false, false, fun _ => Except.error "boom",
           fun _ _ => false, [], fun _ => false, fun _ => false,
           fun _ => false⟩ ["*.md"] [] true
          = ([], ["Path does not exist: gone"]))
      ∧ ((FileDiscovery.find_files
          ⟨"gone", false, false, fun _ => Except.error "boom",
           fun _ _ => false, [], fun _ => false, fun _ => false,
           fun _ => false⟩ ["*.md"] [] true).1.Sorted fun a b => a ≤ b)
      ∧ (∀ f ∈ (FileDiscovery.find_files
          ⟨"gone", false, false, fun _ => Except.error "boom",
           fun _ _ => false, [], fun _ => false, fun _ => false,
           fun _ => false⟩ ["*.md"] [] true).1,
          (⟨"gone", false, false, fun _ => Except.error "boom",
            fun _ _ => false, [], fun _ => false, fun _ => false,
            fun _ => false⟩ : FileDiscovery.DiscoveryFs).isBinary f = false
          ∧ (⟨"gone", false, false, fun _ => Except.error "boom",
              fun _ _ => false, [], fun _ => false, fun _ => false,
              fun _ => false⟩ : FileDiscovery.DiscoveryFs).sizeZero f = false
          ∧ (⟨"gone", false, false, fun _ => Except.error "boom",
              fun _ _ => false, [], fun _ => false, fun _ => false,
              fun _ => false⟩ :
              FileDiscovery.DiscoveryFs).readProbe f = true)
      ∧ ((FileDiscovery.parse_pattern "*.py").content = none →
          (⟨"gone", false, false, fun _ => Except.error "boom",
            fun _ _ => false, [], fun _ => false, fun _ => false,
            fun _ => false⟩ :
            FileDiscovery.DiscoveryFs).globFiles "*.py"
            = Except.error "boom" →
          FileDiscovery.find_files
            ⟨"gone", false, false, fun _ => Except.error "boom",
             fun _ _ => false, [], fun _ => false, fun _ => false,
             fun _ => false⟩ ("*.py" :: ["*.md"]) [] true
          = FileDiscovery.find_files
            ⟨"gone", false, false, fun _ => Except.error "boom",
             fun _ _ => false, [], fun _ => false, fun _ => false,
             fun _ => false⟩ ["*.md"] [] true)) :=
  ⟨rfl, by decide, rfl,
    find_files_error_handling
      ⟨"gone", false, false, fun _ => Except.error "boom", fun _ _ => false,
       [], fun _ => false, fun _ => false, fun _ => false⟩
      ["*.md"] [] true "*.py" "boom"⟩

/-! ## Claims about the executor -/

/-- C3 (counterexample): a file of 5 tokens (≤ 100) processed at tier 100
with a matching line-numbering pattern yields a successful result whose
content is NOT the file's content unchanged: line numbers are prefixed.
So "executing that file under any assigned tier produces ... content equal
to the file's content unchanged" fails at tier 100. -/
theorem small_file_modified_at_tier100 :
    ((⟨"a.py", 100, 5⟩ : AsyncProcessor.FileInfo).originalTokens ≤ 100)
    ∧ 100 ∈ Planner.tierScale
    ∧ (AsyncProcessor.process_single_file
        ⟨fun _ => Except.ok "a\nb", fun _ _ _ => Except.error "unused",
         fun _ => 0, fun _ => true, fun _ => false⟩
        ⟨"a.py", 100, 5⟩).success = true
    ∧ ¬((AsyncProcessor.process_single_file
        ⟨fun _ => Except.ok "a\nb", fun _ _ _ => Except.error "unused",
         fun _ => 0, fun _ => true, fun _ => false⟩
        ⟨"a.py", 100, 5⟩).summary = some "a\nb") := by
  refine ⟨by decide, by decide, by decide, by decide⟩

/-- C3 (amended): for every file with original_tokens ≤ 100 whose read
succeeds, Estimate(tier, original_tokens) = original_tokens for every tier
of the six-tier scale, and execution yields a successful ProcessingResult;
for tier < 100 the content equals the file's content unchanged and no
transformation request is made (the result does not depend on the
transformation service); at tier 100 the content is returned unchanged
except that line numbers are prefixed when the file is a non-documentation
file matching a configured line-numbering pattern. -/
theorem small_file_pass_through
    (env : AsyncProcessor.ExecEnv) (fi : AsyncProcessor.FileInfo)
    (content : String)
    (hread : env.readFile fi.path = Except.ok content)
    (hsmall : fi.originalTokens ≤ 100) :
    (∀ t ∈ Planner.tierScale,
      Planner.estimate_file_tokens fi.originalTokens t = fi.originalTokens)
    ∧ (AsyncProcessor.process_single_file env fi).success = true
    ∧ (fi.tier ≠ 100 →
        (AsyncProcessor.process_single_file env fi).summary = some content
        ∧ ∀ tf, AsyncProcessor.process_single_file
            { env with transform := tf } fi
          = AsyncProcessor.process_single_file env fi)
    ∧ (fi.tier = 100 →
        (AsyncProcessor.process_single_file env fi).summary =
          some (if !env.isDocExt fi.path && env.shouldAddLineNumbers fi.path
            then AsyncProcessor.add_line_numbers content else content)) := by
  refine ⟨?_, ?_, ?_, ?_⟩
  · intro t ht
    simp only [Planner.tierScale, List.mem_cons, List.not_mem_nil, or_false]
      at ht
    have hmid : ∀ m, min (max 100 (fi.originalTokens * m / 100))
        fi.originalTokens = fi.originalTokens := fun m =>
      min_eq_right (le_trans hsmall (le_max_left _ _))
    rcases ht with rfl | rfl | rfl | rfl | rfl | rfl
    · rfl
    · exact hmid 95
    · exact hmid 85
    · exact hmid 50
    · exact hmid 10
    · exact min_eq_right hsmall
  · by_cases h100 : fi.tier = 100
    · simp [AsyncProcessor.process_single_file, hread, h100,
        AsyncProcessor.handle_uncompressed_file,
        AsyncProcessor.create_success_result]
    · simp [AsyncProcessor.process_single_file, hread, h100, hsmall,
        AsyncProcessor.create_success_result]
  · intro h100
    constructor
    · simp [AsyncProcessor.process_single_file, hread, h100, hsmall,
        AsyncProcessor.create_success_result]
    · intro tf
      simp [AsyncProcessor.process_single_file, hread, h100, hsmall]
  · intro h100
    simp [AsyncProcessor.process_single_file, hread, h100,
      AsyncProcessor.handle_uncompressed_file,
      AsyncProcessor.create_success_result]

/-- Witness for the amended C3 at a concrete input: a 30-token file at
tier 10 is passed through unchanged and ignores the transformation
service. -/
theorem small_file_pass_through_witness :
    ((⟨fun _ => Except.ok "x", fun _ _ _ => Except.error "svc",
       fun _ => 1, fun _ => false, fun _ => false⟩ :
        AsyncProcessor.ExecEnv).readFile
        (⟨"tiny.py", 10, 30⟩ : AsyncProcessor.FileInfo).path
      = Except.ok "x")
    ∧ ((⟨"tiny.py", 10, 30⟩ : AsyncProcessor.FileInfo).originalTokens ≤ 100)
    ∧ ((∀ t ∈ Planner.tierScale,
        Planner.estimate_file_tokens
          (⟨"tiny.py", 10, 30⟩ : AsyncProcessor.FileInfo).originalTokens t
          = (⟨"tiny.py", 10, 30⟩ : AsyncProcessor.FileInfo).originalTokens)
      ∧ (AsyncProcessor.process_single_file
          ⟨fun _ => Except.ok "x", fun _ _ _ => Except.error "svc",
           fun _ => 1, fun _ => false, fun _ => false⟩
          ⟨"tiny.py", 10, 30⟩).success = true
      ∧ ((⟨"tiny.py", 10, 30⟩ : AsyncProcessor.FileInfo).tier ≠ 100 →
          (AsyncProcessor.process_single_file
            ⟨fun _ => Except.ok "x", fun _ _ _ => Except.error "svc",
             fun _ => 1, fun _ => false, fun _ => false⟩
            ⟨"tiny.py", 10, 30⟩).summary = some "x"
          ∧ ∀ tf, AsyncProcessor.process_single_file
              { (⟨fun _ => Except.ok "x", fun _ _ _ => Except.error "svc",
                 fun _ => 1, fun _ => false, fun _ => false⟩ :
                  AsyncProcessor.ExecEnv) with transform := tf }
              ⟨"tiny.py", 10, 30⟩
            = AsyncProcessor.process_single_file
              ⟨fun _ => Except.ok "x", fun _ _ _ => Except.error "svc",
               fun _ => 1, fun _ => false, fun _ => false⟩
              ⟨"tiny.py", 10, 30⟩)
      ∧ ((⟨"tiny.py", 10, 30⟩ : AsyncProcessor.FileInfo).tier = 100 →
          (AsyncProcessor.process_single_file
            ⟨fun _ => Except.ok "x", fun _ _ _ => Except.error "svc",
             fun _ => 1, fun _ => false, fun _ => false⟩
            ⟨"tiny.py", 10, 30⟩).summary =
            some (if !(⟨fun _ => Except.ok "x",
                fun _ _ _ => Except.error "svc", fun _ => 1, fun _ => false,
                fun _ => false⟩ : AsyncProcessor.ExecEnv).isDocExt "tiny.py"
                && (⟨fun _ => Except.ok "x", fun _ _ _ => Except.error "svc",
                 fun _ => 1, fun _ => false, fun _ => false⟩ :
                  AsyncProcessor.ExecEnv).shouldAddLineNumbers "tiny.py"
              then AsyncProcessor.add_line_numbers "x" else "x"))) :=
  ⟨rfl, by decide,
    small_file_pass_through
      ⟨fun _ => Except.ok "x", fun _ _ _ => Except.error "svc",
       fun _ => 1, fun _ => false, fun _ => false⟩
      ⟨"tiny.py", 10, 30⟩ "x" rfl (by decide)⟩

/-- C5: executing a batch yields exactly one ProcessingResult per planned
file, in a list of the same length whose i-th entry is the i-th file's own
result; a read failure or a transformation-service failure for one file is
converted into a failed result carrying the error text for that file only,
and any file's result depends only on the environment's behaviour at that
file, so no failure elsewhere can change it or abort the batch. -/
theorem executor_per_file_isolation
    (env : AsyncProcessor.ExecEnv) (plan : List AsyncProcessor.FileInfo)
    (i : Nat) (h : i < plan.length) :
    (AsyncProcessor.process_files_with_plan env plan).length = plan.length
    ∧ (AsyncProcessor.process_files_with_plan env plan)[i]?
        = some (AsyncProcessor.process_single_file env plan[i])
    ∧ (∀ e, env.readFile plan[i].path = Except.error e →
        AsyncProcessor.process_single_file env plan[i]
          = AsyncProcessor.create_error_result plan[i].path plan[i].tier
              plan[i].originalTokens e)
    ∧ (∀ e content, plan[i].tier ≠ 100 → ¬(plan[i].originalTokens ≤ 100) →
        env.readFile plan[i].path = Except.ok content →
        env.transform plan[i].path content plan[i].tier = Except.error e →
        AsyncProcessor.process_single_file env plan[i]
          = AsyncProcessor.create_error_result plan[i].path plan[i].tier
              plan[i].originalTokens e)
    ∧ (∀ env2 : AsyncProcessor.ExecEnv,
        env2.readFile plan[i].path = env.readFile plan[i].path →
        (∀ c t, env2.transform plan[i].path c t
          = env.transform plan[i].path c t) →
        (∀ s, env2.countTokens s = env.countTokens s) →
        env2.shouldAddLineNumbers plan[i].path
          = env.shouldAddLineNumbers plan[i].path →
        env2.isDocExt plan[i].path = env.isDocExt plan[i].path →
        AsyncProcessor.process_single_file env2 plan[i]
          = AsyncProcessor.process_single_file env plan[i]) := by
  refine ⟨?_, ?_, ?_, ?_, ?_⟩
  · simp [AsyncProcessor.process_files_with_plan]
  · simp [AsyncProcessor.process_files_with_plan, List.getElem?_map,
      List.getElem?_eq_getElem h]
  · intro e he
    simp [AsyncProcessor.process_single_file, he]
  · intro e content h100 hbig hr ht
    simp [AsyncProcessor.process_single_file, hr, h100, hbig, ht]
  · intro env2 hr ht hc hl hd
    unfold AsyncProcessor.process_single_file
    rw [hr]
    rcases hread : env.readFile plan[i].path with e | content
    · rfl
    · by_cases h100 : plan[i].tier = 100
      · simp [h100, AsyncProcessor.handle_uncompressed_file, hl, hd]
      · by_cases hsmall : plan[i].originalTokens ≤ 100
        · simp [h100, hsmall]
        · simp only [if_neg h100, if_neg hsmall, ht]
          rcases env.transform plan[i].path content plan[i].tier with e | s
          · rfl
          · simp [hc]

/-- Witness for C5 at a concrete two-file batch in which the second file's
read fails: the batch still has two results and the second is the failed
result carrying the error text. -/
theorem executor_per_file_isolation_witness :
    (1 < ([⟨"good.py", 100, 50⟩, ⟨"bad.py", 50, 500⟩] :
        List AsyncProcessor.FileInfo).length)
    ∧ (AsyncProcessor.process_files_with_plan
        ⟨fun p => if p == "bad.py" then Except.error "read failed"
           else Except.ok "content",
         fun _ _ _ => Except.ok "sum", fun _ => 7, fun _ => false,
         fun _ => false⟩
        [⟨"good.py", 100, 50⟩, ⟨"bad.py", 50, 500⟩]).length = 2
    ∧ (AsyncProcessor.process_files_with_plan
        ⟨fun p => if p == "bad.py" then Except.error "read failed"
           else Except.ok "content",
         fun _ _ _ => Except.ok "sum", fun _ => 7, fun _ => false,
         fun _ => false⟩
        [⟨"good.py", 100, 50⟩, ⟨"bad.py", 50, 500⟩])[1]?
      = some (AsyncProcessor.create_error_result "bad.py" 50 500
          "read failed") := by
  have H := executor_per_file_isolation
    ⟨fun p => if p == "bad.py" then Except.error "read failed"
       else Except.ok "content",
     fun _ _ _ => Except.ok "sum", fun _ => 7, fun _ => false,
     fun _ => false⟩
    [⟨"good.py", 100, 50⟩, ⟨"bad.py", 50, 500⟩] 1 (by decide)
  refine ⟨by decide, H.1, ?_⟩
  rw [H.2.1, H.2.2.1 "read failed" rfl]
  rfl

/-- Witness for C10 at a concrete plan: the entry for "a.py" (present in the
candidate list with 123 tokens) gets the candidate count 123 instead of the
oracle-reported 999, and stays in the plan. -/
theorem plan_entries_token_source_witness :
    (({ path := "a.py", originalTokens := 999, tier := 50 } :
        Planner.PlanFile) ∈
      ([{ path := "a.py", originalTokens := 999, tier := 50 },
        { path := "ghost.py", originalTokens := 7, tier := 0 }] :
        List Planner.PlanFile))
    ∧ ("a.py" ∈ ([("a.py", 123)] : List (String × Nat)).map Prod.fst)
    ∧ ∃ v, Planner.dictLookup [("a.py", 123)] "a.py" = some v
        ∧ ("a.py", v) ∈ ([("a.py", 123)] : List (String × Nat))
        ∧ ({ path := "a.py", originalTokens := v, tier := 50 } :
            Planner.PlanFile) ∈
            ((Planner.build_plan_result
              [{ path := "a.py", originalTokens := 999, tier := 50 },
               { path := "ghost.py", originalTokens := 7, tier := 0 }]
              [("a.py", 123)] [] 0 0 500 450 10 none).files.getD []) := by
  refine ⟨by decide, by decide, ?_⟩
  exact (plan_entries_token_source
    [{ path := "a.py", originalTokens := 999, tier := 50 },
     { path := "ghost.py", originalTokens := 7, tier := 0 }]
    [("a.py", 123)] [] 0 0 500 450 10 none
    { path := "a.py", originalTokens := 999, tier := 50 }
    (by decide)).1 (by decide)

end Fit
